import Mathlib

/-!
Verification of the J.A.R.V.I.S resolve → plan → execute pipeline.

A shallow embedding, in Lean 4, of the core decision pipeline of the
repository:

* `src/interaction/resolver/intents.py`       — Intent data model
* `src/interaction/resolver/rules_quick.py`   — quick regex rule matcher
* `src/interaction/resolver/legacy_router.py` — legacy pattern router
* `src/interaction/resolver/resolver.py`      — ResolverService orchestration
* `src/planner/policies.py`                   — PlanPolicy
* `src/toolrunner/management/planner/planner.py` — Planner / Plan
* `src/executor/registry.py`                  — tool metadata table
* `src/executor/executor.py`                  — Executor
* `src/core/executor/transports.py`           — TransportResponse / LocalToolTransport
* `src/toolrunner/security.py`                — normalize_args

Modelling conventions, used throughout:

* Python strings are Lean `String`s; dictionaries whose keys appear in the
  code are association lists (`List (String × _)`) preserving insertion order.
* Dynamically typed Python values flowing through `args` are modelled by
  `PVal`: a string, or an opaque non-string value (only `isinstance(v, str)`
  branches inspect them).
* Python floats that are only ever compared (confidence thresholds) are
  modelled as `Rat`; no float arithmetic occurs in the embedded code, so
  order comparisons are exact.
* Environment effects are explicit parameters: the UUID in a trace id, and
  the outcome of each HTTP call (`RemoteHttp`).  Wall-clock step timing in
  the executor is irrelevant to every claim and modelled as 0.
* Code that can raise a Python exception past a boundary is embedded in
  `Except PyExc`; code that cannot raise is a plain function.
* Regexes from the source are hand-compiled to matching functions on
  `List Char` with Python `re` semantics (leftmost match, lazy vs greedy
  groups, `$` also matching before one trailing newline, IGNORECASE via
  Russian/ASCII lowercasing).  Each matcher carries its source regex in a
  comment.
-/

/-- Dynamically typed value carried in `args` mappings: either a Python
string or an opaque non-string value (tagged for distinguishability). -/
inductive PVal where
  | vstr (s : String)
  | vother (tag : String)
deriving DecidableEq, Repr

/-- Ordered string-keyed mapping (Python dict with known key set). -/
abbrev Args := List (String × PVal)

/-- `d.get(k)` on an association list. -/
def argsGet (a : Args) (k : String) : Option PVal :=
  match a.find? (fun kv => kv.1 = k) with
  | some kv => some kv.2
  | none => none

/-! ## Python string helpers -/

/-- Python `str.isspace` characters relevant to `\s` and `str.strip()`
(ASCII whitespace; the exotic Unicode space classes do not occur in the
rule patterns or in any input under consideration). -/
def isPySpace (c : Char) : Bool :=
  c = ' ' || c = '\t' || c = '\n' || c = '\x0d' || c = '\x0b' || c = '\x0c'

/-- Lowercasing used for `re.IGNORECASE`: ASCII letters plus the Russian
alphabet (А..Я → а..я, Ё → ё), the only letters in the rule patterns. -/
def ruLower (c : Char) : Char :=
  if 65 ≤ c.toNat ∧ c.toNat ≤ 90 then Char.ofNat (c.toNat + 32)
  else if 0x410 ≤ c.toNat ∧ c.toNat ≤ 0x42F then Char.ofNat (c.toNat + 0x20)
  else if c.toNat = 0x401 then Char.ofNat 0x451
  else c

/-- `text.strip()`: drop leading and trailing whitespace. -/
def pyStrip (cs : List Char) : List Char :=
  ((cs.dropWhile isPySpace).reverse.dropWhile isPySpace).reverse

/-- `s.strip(ch)`: drop every leading and trailing occurrence of `ch`. -/
def pyStripChar (ch : Char) (cs : List Char) : List Char :=
  ((cs.dropWhile (· = ch)).reverse.dropWhile (· = ch)).reverse

/-- Case-insensitive literal match; returns the remainder on success. -/
def matchLit : List Char → List Char → Option (List Char)
  | [], cs => some cs
  | _, [] => none
  | p :: ps, c :: cs => if ruLower c = ruLower p then matchLit ps cs else none

/-- `s.startswith(p)` on characters (structural, kernel-computable). -/
def charsStartWith : List Char → List Char → Bool
  | _, [] => true
  | [], _ :: _ => false
  | c :: cs, p :: ps => c = p && charsStartWith cs ps

/-- Python `s.startswith(p)`. -/
def strStartsWith (s p : String) : Bool :=
  charsStartWith s.toList p.toList

/-- Regex `.` (no DOTALL): any character except a newline. -/
def dotChar (c : Char) : Bool := c ≠ '\n'

/-- Regex `$` without MULTILINE: end of input, or just before one final
newline. -/
def dollarEnd (cs : List Char) : Bool := cs = [] || cs = ['\n']

/-- Tail regex `(.+)$`: the greedy dot-run must be nonempty and reach the
end (up to one trailing newline).  Returns the captured group. -/
def dotPlusEnd (cs : List Char) : Option (List Char) :=
  let g := cs.takeWhile dotChar
  if g ≠ [] ∧ dollarEnd (cs.drop g.length) then some g else none

/-- Tail regex `(.*)$`: like `dotPlusEnd` but the group may be empty. -/
def dotStarEnd (cs : List Char) : Option (List Char) :=
  let g := cs.takeWhile dotChar
  if dollarEnd (cs.drop g.length) then some g else none

/-- Tail regex `(.+)\s*$`: greedy dot-run, then only whitespace may remain
(`\s` may contain newlines).  Returns the captured group. -/
def dotPlusWsEnd (cs : List Char) : Option (List Char) :=
  let g := cs.takeWhile dotChar
  if g ≠ [] ∧ (cs.drop g.length).all isPySpace then some g else none

/-- `\s+` followed by a continuation: the greedy run backtracks from the
longest whitespace run down to one character (needed because the
continuation may itself start with `.` which can match whitespace). -/
def wsPlusThen {α : Type} (k : List Char → Option α) (cs : List Char) : Option α :=
  let n := (cs.takeWhile isPySpace).length
  (List.range n).foldl
    (fun acc j => match acc with
      | some r => some r
      | none => k (cs.drop (n - j)))
    none

/-- `\s+` whose continuation starts with a non-whitespace literal: the run
is consumed greedily with no backtracking possible. -/
def wsPlusLit (cs : List Char) : Option (List Char) :=
  match cs with
  | c :: rest => if isPySpace c then some (rest.dropWhile isPySpace) else none
  | [] => none

/-- Lazy group `(.+?)` followed by a separator matcher: boundaries are
tried left to right (shortest group first), each group character must be
dot-matchable.  Returns the group and the separator continuation value. -/
def lazyDotPlus (sep : List Char → Option (List Char)) :
    List Char → List Char → Option (List Char × List Char)
  | _, [] => none
  | acc, c :: rest =>
    if dotChar c then
      match sep rest with
      | some r => some (acc ++ [c], r)
      | none => lazyDotPlus sep (acc ++ [c]) rest
    else none

/-! ## Intent data model — `src/interaction/resolver/intents.py` -/

/-- `IntentType = Literal["chat", "command"]`. -/
inductive IntentKind where
  | chat
  | command
deriving DecidableEq, Repr

/-- `ResolverMeta`: auxiliary metadata produced by the resolver stage. -/
structure ResolverMeta where
  trace_id : Option String := none
  confidence : Option Rat := none
  rule : Option String := none
  source : Option String := none
  fallback_used : Bool := false
  explain : List String := []
deriving DecidableEq, Repr

/-- `Intent`: resolver decision fed into the planner. -/
structure Intent where
  kind : IntentKind
  name : Option String := none
  args : Args := []
  text : Option String := none
  meta : ResolverMeta := {}
deriving DecidableEq, Repr

/-- `Intent.is_command`: kind is command and the name is truthy. -/
def Intent.is_command (i : Intent) : Bool :=
  i.kind = IntentKind.command && (match i.name with
    | some n => n ≠ ""
    | none => false)

/-- `command_intent(...)` constructor (all keyword parameters positional
here, in source order). -/
def command_intent (name : String) (args : Args) (confidence : Option Rat)
    (rule : Option String) (trace_id : Option String)
    (source : Option String) (fallback_used : Bool)
    (explain : List String) : Intent :=
  { kind := IntentKind.command
    name := some name
    args := args
    meta := { trace_id := trace_id, confidence := confidence, rule := rule,
              source := source, fallback_used := fallback_used, explain := explain } }

/-- `chat_intent(...)` constructor. -/
def chat_intent (text : String) (rule : Option String)
    (trace_id : Option String) (explain : List String) : Intent :=
  { kind := IntentKind.chat
    text := some text
    meta := { trace_id := trace_id, rule := rule, explain := explain } }

/-- Python `opt or default` on optional strings (`None` and `""` are
falsy). -/
def strOr (o : Option String) (d : String) : String :=
  match o with
  | some s => if s = "" then d else s
  | none => d

/-! ## Quick rule matcher — `src/interaction/resolver/rules_quick.py` -/

/-- The quote-translation table `_clean_replacements` (fancy double and
single quotes to their ASCII forms). -/
def cleanQuoteMap (c : Char) : Char :=
  if c.toNat = 0x201C ∨ c.toNat = 0x201D ∨ c.toNat = 0xAB ∨ c.toNat = 0xBB then '"'
  else if c.toNat = 0x2018 ∨ c.toNat = 0x2019 then Char.ofNat 39
  else c

/-- `text.replace("\\\\", "\\")`: collapse each escaped double backslash,
scanning left to right without overlap. -/
def unescapeBackslash : List Char → List Char
  | [] => []
  | [c] => [c]
  | c1 :: c2 :: rest =>
    if c1 = Char.ofNat 92 ∧ c2 = Char.ofNat 92 then
      Char.ofNat 92 :: unescapeBackslash rest
    else c1 :: unescapeBackslash (c2 :: rest)

/-- `_clean_str` on a string value: translate fancy quotes, strip, remove
one symmetric surrounding quote pair, strip again, unescape backslashes. -/
def cleanStr (s : String) : String :=
  let t := pyStrip (s.toList.map cleanQuoteMap)
  let t :=
    if t.length ≥ 2 ∧ t.head? = t.getLast? ∧
        (t.head? = some '"' ∨ t.head? = some (Char.ofNat 39)) then
      pyStrip (t.drop 1).dropLast
    else t
  (unescapeBackslash t).asString

/-- `_build_command(cmd, **args)`: clean every captured string argument and
build a command intent with `rule="quick_ru"`, `source="quick"`. -/
def quickBuild (cmd : String) (args : List (String × String)) : Intent :=
  command_intent cmd (args.map fun kv => (kv.1, PVal.vstr (cleanStr kv.2)))
    none (some "quick_ru") none (some "quick") false []

/-- Ordered literal alternation `(?:a|b|...)` (case-insensitive). -/
def altLit (alts : List String) (cs : List Char) : Option (List Char) :=
  alts.foldl (fun acc a => acc <|> matchLit a.toList cs) none

/-- Separator of quick pattern 1: regex tail `\s+с\s+содержимым\s+(.+)$`. -/
def qSepContent (cs : List Char) : Option (List Char) := do
  let r1 ← wsPlusLit cs
  let r2 ← matchLit "с".toList r1
  let r3 ← wsPlusLit r2
  let r4 ← matchLit "содержимым".toList r3
  wsPlusThen dotPlusEnd r4

/-- `^(?:создай|создать)\s+файл\s+(.+?)\s+с\s+содержимым\s+(.+)$` -/
def qPatCreateContent (cs : List Char) : Option Intent := do
  let r0 ← altLit ["создай", "создать"] cs
  let r1 ← wsPlusLit r0
  let r2 ← matchLit "файл".toList r1
  let (path, content) ← wsPlusThen (fun r => lazyDotPlus qSepContent [] r) r2
  some (quickBuild "files.create" [("path", path.asString), ("content", content.asString)])

/-- `^(?:создай|создать)\s+файл\s+(.+)$` -/
def qPatCreate (cs : List Char) : Option Intent := do
  let r0 ← altLit ["создай", "создать"] cs
  let r1 ← wsPlusLit r0
  let r2 ← matchLit "файл".toList r1
  let path ← wsPlusThen dotPlusEnd r2
  some (quickBuild "files.create" [("path", path.asString), ("content", "")])

/-- `^(?:прочитай|прочитать)\s+файл\s+(.+)$` -/
def qPatRead (cs : List Char) : Option Intent := do
  let r0 ← altLit ["прочитай", "прочитать"] cs
  let r1 ← wsPlusLit r0
  let r2 ← matchLit "файл".toList r1
  let path ← wsPlusThen dotPlusEnd r2
  some (quickBuild "files.read" [("path", path.asString)])

/-- `^(?:покажи|список|файлы)(?:\s+(.*))?$`; `mask = m.group(1) or "*"`. -/
def qPatList (cs : List Char) : Option Intent := do
  let r0 ← altLit ["покажи", "список", "файлы"] cs
  match wsPlusThen dotStarEnd r0 with
  | some g =>
    some (quickBuild "files.list" [("mask", if g = [] then "*" else g.asString)])
  | none =>
    if dollarEnd r0 then some (quickBuild "files.list" [("mask", "*")]) else none

/-- `^(?:открой|открыть)\s+файл\s+(.+)$` -/
def qPatOpen (cs : List Char) : Option Intent := do
  let r0 ← altLit ["открой", "открыть"] cs
  let r1 ← wsPlusLit r0
  let r2 ← matchLit "файл".toList r1
  let path ← wsPlusThen dotPlusEnd r2
  some (quickBuild "files.open" [("path", path.asString)])

/-- Backtracking `\s*` followed by a continuation (regex fragment
`\s*(.+)$`): drops from the longest whitespace run down to none. -/
def wsStarThen {α : Type} (k : List Char → Option α) (cs : List Char) : Option α :=
  let n := (cs.takeWhile isPySpace).length
  (List.range (n + 1)).foldl
    (fun acc j => match acc with
      | some r => some r
      | none => k (cs.drop (n - j)))
    none

/-- Separator of quick pattern 6: regex tail `\s*[:\-–]\s*(.+)$`. -/
def qSepColon (cs : List Char) : Option (List Char) :=
  let w := cs.takeWhile isPySpace
  match cs.drop w.length with
  | c :: r2 =>
    if c = ':' ∨ c = '-' ∨ c.toNat = 0x2013 then wsStarThen dotPlusEnd r2 else none
  | [] => none

/-- `^(?:допиши|добавь)\s+в\s+файл\s+(.+?)\s*[:\-–]\s*(.+)$` -/
def qPatAppend (cs : List Char) : Option Intent := do
  let r0 ← altLit ["допиши", "добавь"] cs
  let r1 ← wsPlusLit r0
  let r2 ← matchLit "в".toList r1
  let r3 ← wsPlusLit r2
  let r4 ← matchLit "файл".toList r3
  let (path, content) ← wsPlusThen (fun r => lazyDotPlus qSepColon [] r) r4
  some (quickBuild "files.append" [("path", path.asString), ("content", content.asString)])

/-- `^помощь\s*$` -/
def qPatHelp (cs : List Char) : Option Intent := do
  let r0 ← matchLit "помощь".toList cs
  if r0.all isPySpace then some (quickBuild "system.help" []) else none

/-- `^конфиг\s+показать\s*$` -/
def qPatConfigGet (cs : List Char) : Option Intent := do
  let r0 ← matchLit "конфиг".toList cs
  let r1 ← wsPlusLit r0
  let r2 ← matchLit "показать".toList r1
  if r2.all isPySpace then some (quickBuild "system.config_get" []) else none

/-- `^конфиг\s+установить\s+(\S+)\s+(.+)$` -/
def qPatConfigSet (cs : List Char) : Option Intent := do
  let r0 ← matchLit "конфиг".toList cs
  let r1 ← wsPlusLit r0
  let r2 ← matchLit "установить".toList r1
  let r3 ← wsPlusLit r2
  let key := r3.takeWhile (fun c => !isPySpace c)
  if key = [] then none else
  let value ← wsPlusThen dotPlusEnd (r3.drop key.length)
  some (quickBuild "system.config_set" [("key", key.asString), ("value", value.asString)])

/-- `_PATTERN_BUILDERS`, in source order. -/
def quickPatternList : List (List Char → Option Intent) :=
  [qPatCreateContent, qPatCreate, qPatRead, qPatList, qPatOpen, qPatAppend,
   qPatHelp, qPatConfigGet, qPatConfigSet]

/-- The matching loop of `resolve_quick`: first pattern whose builder yields
a command intent wins; other patterns are tried in order. -/
def quickFirst : List (List Char → Option Intent) → List Char → Option Intent
  | [], _ => none
  | p :: ps, cs =>
    match p cs with
    | some i => if i.is_command then some i else quickFirst ps cs
    | none => quickFirst ps cs

/-- `resolve_quick(text)`: try to resolve `text` using quick regex
patterns. -/
def resolve_quick (text : String) : Option Intent :=
  let stripped := pyStrip text.toList
  if stripped = [] then none else quickFirst quickPatternList stripped

/-! ## Legacy router — `src/interaction/resolver/legacy_router.py` -/

/-- The `ALLOWED` command set of the legacy router. -/
def legacyALLOWED : List String :=
  ["files.list", "files.read", "files.create", "files.append", "files.open",
   "files.reveal", "files.shortcut_to_desktop", "system.help",
   "system.config_get", "system.config_set", "management.execute"]

/-- Regex fragment `"([^"]+)"`: a double quote, a nonempty run of
non-quote characters (greedy, deterministic), a closing double quote. -/
def quotedGroup (cs : List Char) : Option (List Char × List Char) :=
  match cs with
  | c :: rest =>
    if c = '"' then
      let g := rest.takeWhile (fun d => d ≠ '"')
      match rest.drop g.length with
      | c2 :: r2 => if g ≠ [] ∧ c2 = '"' then some (g, r2) else none
      | [] => none
    else none
  | [] => none

/-- Tail regex `(.*)\s*$`: greedy dot-run, then only whitespace may
remain. -/
def dotStarWsEnd (cs : List Char) : Option (List Char) :=
  let g := cs.takeWhile dotChar
  if (cs.drop g.length).all isPySpace then some g else none

/-- Word characters for `\w` (Unicode mode): ASCII alphanumerics,
underscore, and the Russian alphabet used by the rule set. -/
def isWordChar (c : Char) : Bool :=
  (c.isAlpha || c.isDigit || c = '_') ||
  (0x410 ≤ c.toNat && c.toNat ≤ 0x44F) || c.toNat = 0x401 || c.toNat = 0x451

/-- A legacy pattern: matcher from the stripped text to the builder output
`(command, args)` with string-valued arguments. -/
abbrev LegacyPat := List Char → Option (String × List (String × String))

/-- `^\s*файлы\s+"([^"]+)"\s*$` -/
def lPatList : LegacyPat := fun cs => do
  let r0 ← matchLit "файлы".toList (cs.dropWhile isPySpace)
  let r1 ← wsPlusLit r0
  let (g, r2) ← quotedGroup r1
  if r2.all isPySpace then some ("files.list", [("mask", g.asString)]) else none

/-- `^\s*прочитай\s+"([^"]+)"\s*$` -/
def lPatRead : LegacyPat := fun cs => do
  let r0 ← matchLit "прочитай".toList (cs.dropWhile isPySpace)
  let r1 ← wsPlusLit r0
  let (g, r2) ← quotedGroup r1
  if r2.all isPySpace then some ("files.read", [("path", g.asString)]) else none

/-- `^\s*создай\s+файл\s+"([^"]+)"\s+с\s+содержимым\s+(.+)\s*$` -/
def lPatCreate : LegacyPat := fun cs => do
  let r0 ← matchLit "создай".toList (cs.dropWhile isPySpace)
  let r1 ← wsPlusLit r0
  let r2 ← matchLit "файл".toList r1
  let r3 ← wsPlusLit r2
  let (g, r4) ← quotedGroup r3
  let r5 ← wsPlusLit r4
  let r6 ← matchLit "с".toList r5
  let r7 ← wsPlusLit r6
  let r8 ← matchLit "содержимым".toList r7
  let content ← wsPlusThen dotPlusWsEnd r8
  some ("files.create", [("path", g.asString), ("content", content.asString)])

/-- `^\s*допиши\s+в\s+"([^"]+)"\s+текст\s+(.+)\s*$` -/
def lPatAppend : LegacyPat := fun cs => do
  let r0 ← matchLit "допиши".toList (cs.dropWhile isPySpace)
  let r1 ← wsPlusLit r0
  let r2 ← matchLit "в".toList r1
  let r3 ← wsPlusLit r2
  let (g, r4) ← quotedGroup r3
  let r5 ← wsPlusLit r4
  let r6 ← matchLit "текст".toList r5
  let content ← wsPlusThen dotPlusWsEnd r6
  some ("files.append", [("path", g.asString), ("content", content.asString)])

/-- `^\s*открой\s+"([^"]+)"\s*$` -/
def lPatOpen : LegacyPat := fun cs => do
  let r0 ← matchLit "открой".toList (cs.dropWhile isPySpace)
  let r1 ← wsPlusLit r0
  let (g, r2) ← quotedGroup r1
  if r2.all isPySpace then some ("files.open", [("path", g.asString)]) else none

/-- `^\s*покажи\s+"([^"]+)"\s*$` -/
def lPatReveal : LegacyPat := fun cs => do
  let r0 ← matchLit "покажи".toList (cs.dropWhile isPySpace)
  let r1 ← wsPlusLit r0
  let (g, r2) ← quotedGroup r1
  if r2.all isPySpace then some ("files.reveal", [("path", g.asString)]) else none

/-- `^\s*ярлык\s+"([^"]+)"\s*$` -/
def lPatShortcut : LegacyPat := fun cs => do
  let r0 ← matchLit "ярлык".toList (cs.dropWhile isPySpace)
  let r1 ← wsPlusLit r0
  let (g, r2) ← quotedGroup r1
  if r2.all isPySpace then
    some ("files.shortcut_to_desktop", [("path", g.asString)])
  else none

/-- `^\s*помощь\s*$` -/
def lPatHelp : LegacyPat := fun cs => do
  let r0 ← matchLit "помощь".toList (cs.dropWhile isPySpace)
  if r0.all isPySpace then some ("system.help", []) else none

/-- `^\s*конфиг\s+показать\s*$` -/
def lPatConfigGet : LegacyPat := fun cs => do
  let r0 ← matchLit "конфиг".toList (cs.dropWhile isPySpace)
  let r1 ← wsPlusLit r0
  let r2 ← matchLit "показать".toList r1
  if r2.all isPySpace then some ("system.config_get", []) else none

/-- `^\s*конфиг\s+установить\s+(\S+)\s+(.+)\s*$` -/
def lPatConfigSet : LegacyPat := fun cs => do
  let r0 ← matchLit "конфиг".toList (cs.dropWhile isPySpace)
  let r1 ← wsPlusLit r0
  let r2 ← matchLit "установить".toList r1
  let r3 ← wsPlusLit r2
  let key := r3.takeWhile (fun c => !isPySpace c)
  if key = [] then none else
  let value ← wsPlusThen dotPlusWsEnd (r3.drop key.length)
  some ("system.config_set", [("key", key.asString), ("value", value.asString)])

/-- `^\s*(?:менеджмент|управление)\s+(\w+)(?:\s+(.*))?\s*$` -/
def lPatManagement : LegacyPat := fun cs => do
  let r0 ← altLit ["менеджмент", "управление"] (cs.dropWhile isPySpace)
  let r1 ← wsPlusLit r0
  let action := r1.takeWhile isWordChar
  if action = [] then none else
  let r2 := r1.drop action.length
  match wsPlusThen dotStarWsEnd r2 with
  | some extra =>
    some ("management.execute", [("action", action.asString), ("_extra", extra.asString)])
  | none =>
    if r2.all isPySpace then
      some ("management.execute", [("action", action.asString), ("_extra", "")])
    else none

/-- `_PATTERNS`, in source order. -/
def legacyPatternList : List LegacyPat :=
  [lPatList, lPatRead, lPatCreate, lPatAppend, lPatOpen, lPatReveal,
   lPatShortcut, lPatHelp, lPatConfigGet, lPatConfigSet, lPatManagement]

/-! ### `shlex.split` (POSIX mode), used for management arguments -/

/-- Lexer states of the `shlex` model: outside quotes, after an escape
character, inside single quotes, inside double quotes, and after an escape
character inside double quotes. -/
inductive ShMode where
  | norm
  | escaped
  | single
  | double
  | doubleEsc
deriving DecidableEq, Repr

/-- One-character-at-a-time model of `shlex.split(s)` in POSIX mode:
whitespace separates tokens, a backslash escapes the next character, single
quotes are literal runs, double quotes allow `\"` and `\\` escapes.
Unbalanced quotes or a trailing escape raise `ValueError`. -/
def shlexRun (mode : ShMode) (tok : Option (List Char)) (out : List String) :
    List Char → Except String (List String)
  | [] =>
    match mode with
    | ShMode.norm =>
      match tok with
      | some t => Except.ok (out ++ [t.asString])
      | none => Except.ok out
    | ShMode.escaped => Except.error "No escaped character"
    | _ => Except.error "No closing quotation"
  | c :: rest =>
    match mode with
    | ShMode.norm =>
      if isPySpace c then
        match tok with
        | some t => shlexRun ShMode.norm none (out ++ [t.asString]) rest
        | none => shlexRun ShMode.norm none out rest
      else if c = Char.ofNat 92 then shlexRun ShMode.escaped (some (tok.getD [])) out rest
      else if c = Char.ofNat 39 then shlexRun ShMode.single (some (tok.getD [])) out rest
      else if c = '"' then shlexRun ShMode.double (some (tok.getD [])) out rest
      else shlexRun ShMode.norm (some (tok.getD [] ++ [c])) out rest
    | ShMode.escaped => shlexRun ShMode.norm (some (tok.getD [] ++ [c])) out rest
    | ShMode.single =>
      if c = Char.ofNat 39 then shlexRun ShMode.norm tok out rest
      else shlexRun ShMode.single (some (tok.getD [] ++ [c])) out rest
    | ShMode.double =>
      if c = '"' then shlexRun ShMode.norm tok out rest
      else if c = Char.ofNat 92 then shlexRun ShMode.doubleEsc tok out rest
      else shlexRun ShMode.double (some (tok.getD [] ++ [c])) out rest
    | ShMode.doubleEsc =>
      if c = '"' ∨ c = Char.ofNat 92 then
        shlexRun ShMode.double (some (tok.getD [] ++ [c])) out rest
      else
        shlexRun ShMode.double (some (tok.getD [] ++ [Char.ofNat 92, c])) out rest

/-- `shlex.split(raw)`. -/
def shlexSplit (raw : String) : Except String (List String) :=
  shlexRun ShMode.norm none [] raw.toList

/-- Python dict assignment `d[k] = v`: overwrite in place, else append. -/
def setArg (a : List (String × String)) (k v : String) : List (String × String) :=
  if a.any (fun kv => kv.1 = k) then
    a.map (fun kv => if kv.1 = k then (k, v) else kv)
  else a ++ [(k, v)]

/-- Split a token at the first `=` (`token.split("=", 1)`), if any. -/
def splitEq (t : List Char) : Option (List Char × List Char) :=
  let k := t.takeWhile (fun c => c ≠ '=')
  match t.drop k.length with
  | c :: rest => if c = '=' then some (k, rest) else none
  | [] => none

/-- `_parse_management_args(raw)`: shlex-split, then require every token to
be `key=value` with a nonempty stripped key; `ValueError` otherwise. -/
def parse_management_args (raw : String) : Except String (List (String × String)) :=
  if raw = "" then Except.ok []
  else
    match shlexSplit raw with
    | Except.error e => Except.error e
    | Except.ok tokens =>
      tokens.foldlM
        (fun acc token =>
          match splitEq token.toList with
          | none => Except.error "E_INVALID_MANAGEMENT_ARGS"
          | some (k, v) =>
            let key := (pyStrip k).asString
            if key = "" then Except.error "E_INVALID_MANAGEMENT_ARGS"
            else Except.ok (setArg acc key (pyStrip v).asString))
        []

/-- `_normalize_args`: strip whitespace and all outer double then single
quotes from string values; leave other values unchanged. -/
def legacy_normalize_args (a : Args) : Args :=
  a.map fun kv =>
    match kv.2 with
    | PVal.vstr s =>
      (kv.1, PVal.vstr ((pyStripChar (Char.ofNat 39)
        (pyStripChar '"' (pyStrip s.toList))).asString))
    | v => (kv.1, v)

/-- The local `action = payload.get("action", "").strip()` of the
management branch of `legacy_route`. -/
def legacyActionOf (args : List (String × String)) : String :=
  (pyStrip (((args.find? (fun kv => kv.1 = "action")).map (·.2)).getD "").toList).asString

/-- The `payload.get("_extra", "")` of the management branch of
`legacy_route`. -/
def legacyExtraOf (args : List (String × String)) : String :=
  ((args.find? (fun kv => kv.1 = "_extra")).map (·.2)).getD ""

/-- The rebuilt management payload `{"action": action, **extras}`. -/
def legacyManagementPayload (args : List (String × String))
    (extras : List (String × String)) : List (String × String) :=
  extras.foldl (fun acc kv => setArg acc kv.1 kv.2) [("action", legacyActionOf args)]

/-- The matching loop of `legacy_route`: try patterns in order; a match
whose command is outside `ALLOWED`, a management match with an empty
action, or one whose extras fail to parse, falls through to the next
pattern (`continue`). -/
def legacyTry : List LegacyPat → List Char → Option Intent
  | [], _ => none
  | p :: ps, cs =>
    match p cs with
    | none => legacyTry ps cs
    | some (command, args) =>
      if command ∈ legacyALLOWED then
        if command = "management.execute" then
          if legacyActionOf args = "" then legacyTry ps cs
          else
            match parse_management_args (legacyExtraOf args) with
            | Except.error _ => legacyTry ps cs
            | Except.ok extras =>
              some (command_intent command
                (legacy_normalize_args ((legacyManagementPayload args extras).map
                  fun kv => (kv.1, PVal.vstr kv.2)))
                none (some "legacy_router") none (some "legacy") false [])
        else
          some (command_intent command
            (legacy_normalize_args (args.map fun kv => (kv.1, PVal.vstr kv.2)))
            none (some "legacy_router") none (some "legacy") false [])
      else legacyTry ps cs

/-- `legacy_route(text)`. -/
def legacy_route (text : String) : Intent :=
  let stripped := pyStrip text.toList
  match legacyTry legacyPatternList stripped with
  | some i => i
  | none => chat_intent stripped.asString (some "legacy_router") none ["no_match"]

/-! ## Resolver service — `src/interaction/resolver/resolver.py` -/

/-- `ResolverConfig` (fields that influence `resolve`; the LLM fields only
flow into the serialized request payload, which the `RemoteHttp` parameter
abstracts). -/
structure ResolverConfig where
  whitelist : List String
  remote_url : Option String
  mode : String
  low_conf_threshold : Rat
  use_legacy_when_low_conf : Bool
deriving DecidableEq, Repr

/-- `set(config.whitelist or LEGACY_ALLOWED)`: an empty configured
whitelist falls back to the legacy `ALLOWED` set (set semantics are only
membership tests, so the list stands for the set). -/
def effWhitelist (cfg : ResolverConfig) : List String :=
  if cfg.whitelist = [] then legacyALLOWED else cfg.whitelist

/-- Truthiness of `self._cfg.remote_url` (`None` and `""` are falsy). -/
def remoteUrlTruthy (cfg : ResolverConfig) : Bool :=
  match cfg.remote_url with
  | some s => s ≠ ""
  | none => false

/-- The body of a 200-level remote response, as decoded JSON: either not a
JSON object (any attribute access on it raises), or an object whose
schema-relevant fields are listed (`confidence` already passed through
`_safe_float`, which yields `None` for absent or unparsable values). -/
inductive RemoteData where
  | notDict (pyType : String)
  | dict (command : Option String) (args : Option Args) (confidence : Option Rat)
      (fallback_used : Bool) (explain : Option (List String))
      (resolver_rule : Option String)

/-- Outcome of the HTTP call in `_resolve_remote`: a transport-level error
(`httpx.HTTPError`, including the `raise_for_status` of a 4xx/5xx, or a
`ValueError` from `.json()` on an undecodable body), or decoded JSON. -/
inductive RemoteHttp where
  | httpError (msg : String)
  | okJson (data : RemoteData)

/-- A Python exception escaping the embedded code. -/
inductive PyExc where
  | attributeError (msg : String)
deriving DecidableEq, Repr

/-- `ResolverService._resolve_remote`: convert the HTTP outcome into an
Intent.  Transport errors become a chat intent with
`rule="remote_error"`; a non-object body raises `AttributeError` at
`data.get("command")`, outside the `except` clause. -/
def ResolverService.resolve_remote (cfg : ResolverConfig) (text : String)
    (trace_id : String) (remote : RemoteHttp) : Except PyExc Intent :=
  match remote with
  | RemoteHttp.httpError msg =>
    Except.ok (chat_intent text (some "remote_error") (some trace_id)
      ["remote_error:" ++ msg])
  | RemoteHttp.okJson (RemoteData.notDict pyType) =>
    Except.error (PyExc.attributeError (pyType ++ " object has no attribute get"))
  | RemoteHttp.okJson (RemoteData.dict command args confidence fallback_used
      explain resolver_rule) =>
    -- the locals `args = data.get("args") or {}` and
    -- `explain = tuple(...)` are inlined as `args.getD []`, `explain.getD []`
    match command with
    | some c =>
      if c ≠ "" ∧ c ∈ effWhitelist cfg then
        Except.ok (command_intent c (args.getD []) confidence
          (some (strOr resolver_rule "remote")) (some trace_id) (some "remote")
          fallback_used (explain.getD []))
      else if fallback_used ∧ c ∈ effWhitelist cfg then
        Except.ok (command_intent c (args.getD []) confidence (some "remote_fallback")
          (some trace_id) (some "remote") true (explain.getD []))
      else
        Except.ok (chat_intent text (some "remote_unhandled") (some trace_id)
          (explain.getD []))
    | none =>
      Except.ok (chat_intent text (some "remote_unhandled") (some trace_id)
        (explain.getD []))

/-- The final fallback of `ResolverService.resolve`: legacy router, then a
surviving remote chat intent, then plain chat. -/
def ResolverService.resolveFinal (cfg : ResolverConfig) (text : String)
    (trace_id : String) (remote_chat : Option Intent) : Intent :=
  if (legacy_route text).is_command ∧
      ((legacy_route text).name.getD "") ∈ effWhitelist cfg then
    command_intent ((legacy_route text).name.getD "") (legacy_route text).args
      (some (mkRat 49 100)) (legacy_route text).meta.rule (some trace_id)
      (some (strOr (legacy_route text).meta.source "legacy")) true
      (legacy_route text).meta.explain
  else
    match remote_chat with
    | some rc => if !rc.is_command then rc else chat_intent text (some "chat") (some trace_id) []
    | none => chat_intent text (some "chat") (some trace_id) []

/-- The remote stage of `ResolverService.resolve` and everything after it
(the code past the quick-rule early return). -/
def ResolverService.resolveAfterQuick (cfg : ResolverConfig) (trace_id : String)
    (text : String) (remote : RemoteHttp) : Except PyExc Intent :=
  if remoteUrlTruthy cfg ∧ (cfg.mode = "hybrid" ∨ cfg.mode = "remote") then
    match ResolverService.resolve_remote cfg text trace_id remote with
    | Except.error e => Except.error e
    | Except.ok remote_intent =>
      if remote_intent.is_command then
        match remote_intent.meta.confidence with
        | none => Except.ok remote_intent
        | some conf =>
          if cfg.use_legacy_when_low_conf ∧ conf < cfg.low_conf_threshold then
            -- keep provenance but fall back to legacy routing for actual command
            -- (the local `fallback = legacy_route(text)` is inlined)
            if (legacy_route text).is_command then
              Except.ok (command_intent ((legacy_route text).name.getD "")
                (legacy_route text).args (some conf) (legacy_route text).meta.rule
                (some trace_id)
                (some (strOr (legacy_route text).meta.source "legacy")) true
                (legacy_route text).meta.explain)
            else Except.ok remote_intent
          else Except.ok remote_intent
      else
        Except.ok (ResolverService.resolveFinal cfg text trace_id (some remote_intent))
  else
    Except.ok (ResolverService.resolveFinal cfg text trace_id none)

/-- The quick-stage guard of `resolve`: `quick.name in self._whitelist`
(a `None` name is not a member of a set of strings). -/
def quickGuard (cfg : ResolverConfig) (quick : Intent) : Bool :=
  match quick.name with
  | some n => decide (n ∈ effWhitelist cfg)
  | none => false

/-- `ResolverService.resolve(text)`.  The generated UUID is the explicit
`trace_id` parameter; the HTTP call outcome is the explicit `remote`
parameter, consulted only on the remote stage path. -/
def ResolverService.resolve (cfg : ResolverConfig) (trace_id : String)
    (text : String) (remote : RemoteHttp) : Except PyExc Intent :=
  match resolve_quick text with
  | some quick =>
    if quickGuard cfg quick then
      Except.ok (command_intent (quick.name.getD "") quick.args
        (some (mkRat 99 100)) (some (strOr quick.meta.rule "quick"))
        (some trace_id) (some (strOr quick.meta.source "quick")) false
        quick.meta.explain)
    else ResolverService.resolveAfterQuick cfg trace_id text remote
  | none => ResolverService.resolveAfterQuick cfg trace_id text remote

/-! ## Planner — `src/planner/policies.py`,
`src/toolrunner/management/planner/planner.py` -/

/-- `PlanPolicy` with ACL tags and confirmation rules. -/
structure PlanPolicy where
  acl_tags : List String
  confirmation_level : Int := 0
  confirmation_prompt_key : Option String := none
deriving DecidableEq, Repr

/-- `PlanPolicy.requires_confirmation(provided_level)`. -/
def PlanPolicy.requires_confirmation (p : PlanPolicy) (provided_level : Int) : Bool :=
  provided_level < p.confirmation_level

/-- One raw step mapping of a planner rule (the keys the code reads; a
field is `none` when the key is absent).  Values are assumed well typed per
the rules-file schema. -/
structure RawStep where
  id : Option String := none
  tool : Option String := none
  use_intent_args : Bool := false
  args : Option Args := none
  on_error : Option String := none
deriving DecidableEq, Repr

/-- One rule mapping of the loaded rule table.  `hasOtherKeys` records
whether the source mapping carries keys beyond the ones the code reads, so
that Python dict truthiness (`if not rule`) is representable. -/
structure PlanRule where
  rule_id : Option String := none
  steps : Option (List RawStep) := none
  acl : Option (List String) := none
  confirmation_level : Option Int := none
  stylist : Option (List (String × String)) := none
  hasOtherKeys : Bool := false
deriving DecidableEq, Repr

/-- Python truthiness of the rule mapping: a dict is falsy iff it has no
keys at all. -/
def PlanRule.isTruthy (r : PlanRule) : Bool :=
  r.rule_id.isSome || r.steps.isSome || r.acl.isSome ||
  r.confirmation_level.isSome || r.stylist.isSome || r.hasOtherKeys

/-- `build_policy(data)`. -/
def build_policy (r : PlanRule) : PlanPolicy :=
  { acl_tags := r.acl.getD []
    confirmation_level := r.confirmation_level.getD 0
    confirmation_prompt_key :=
      match r.stylist with
      | some m => ((m.find? (fun kv => kv.1 = "confirmation")).map (·.2))
      | none => none }

/-- `PlanStep`. -/
structure PlanStep where
  step_id : String
  tool : String
  args : Args
  on_error : Option String := none
deriving DecidableEq, Repr

/-- The provenance dictionaries the planner attaches (one optional field
per key that can occur). -/
structure PlanProvenance where
  planner_rule_id : Option String := none
  reason : Option String := none
  intent : Option String := none
  acl : Option (List String) := none
  context : Option (List (String × String)) := none
deriving DecidableEq, Repr

/-- `Plan`. -/
structure Plan where
  plan_id : String
  intent : Intent
  steps : List PlanStep
  required_tools : List String
  policy : PlanPolicy
  stylist_keys : List (String × String)
  provenance : PlanProvenance
  error : Option String := none
deriving DecidableEq, Repr

/-- `Plan.is_valid`: no error and a nonempty step list. -/
def Plan.is_valid (p : Plan) : Bool :=
  p.error = none && !p.steps.isEmpty

/-- `Plan.requires_confirmation(provided_level)`. -/
def Plan.requires_confirmation (p : Plan) (provided_level : Int) : Bool :=
  p.policy.requires_confirmation provided_level

/-- The loaded rule table `self._rules` (command name → rule mapping). -/
abbrev RuleTable := List (String × PlanRule)

/-- `self._rules.get(name)`. -/
def ruleGet (rules : RuleTable) (name : String) : Option PlanRule :=
  (rules.find? (fun kv => kv.1 = name)).map (·.2)

/-- The step-building loop of `Planner.plan`: steps without a truthy
`tool` are skipped; `use_intent_args` substitutes the intent arguments;
missing ids become `step<n>`. -/
def buildSteps (rule : PlanRule) (intent : Intent) : List PlanStep :=
  (rule.steps.getD []).foldl
    (fun acc raw =>
      match raw.tool with
      | none => acc
      | some t =>
        if t = "" then acc
        else
          let sid := strOr raw.id ("step" ++ toString (acc.length + 1))
          let args := if raw.use_intent_args then intent.args else raw.args.getD []
          acc ++ [{ step_id := sid, tool := t, args := args, on_error := raw.on_error }])
    []

/-- `Planner.plan(intent, context=...)`.  The generated UUID inside
`plan-<uuid>` is the explicit `plan_id` parameter. -/
def Planner.plan (rules : RuleTable) (plan_id : String) (intent : Intent)
    (context : List (String × String)) : Plan :=
  if !intent.is_command ∨ intent.name = none then
    { plan_id := plan_id, intent := intent, steps := [], required_tools := []
      policy := { acl_tags := [] }, stylist_keys := []
      provenance := { reason := some "not_command" }
      error := some "E_NOT_COMMAND" }
  else
    match ruleGet rules (intent.name.getD "") with
    | none =>
      { plan_id := plan_id, intent := intent, steps := [], required_tools := []
        policy := { acl_tags := [] }, stylist_keys := []
        provenance := { reason := some "missing_rule", intent := intent.name }
        error := some "E_NO_RULE" }
    | some rule =>
      if !rule.isTruthy then
        { plan_id := plan_id, intent := intent, steps := [], required_tools := []
          policy := { acl_tags := [] }, stylist_keys := []
          provenance := { reason := some "missing_rule", intent := intent.name }
          error := some "E_NO_RULE" }
      else
        let policy := build_policy rule
        let steps := buildSteps rule intent
        { plan_id := plan_id, intent := intent, steps := steps
          required_tools := steps.map (·.tool)
          policy := policy
          stylist_keys := rule.stylist.getD []
          provenance :=
            { planner_rule_id := some (strOr rule.rule_id (intent.name.getD ""))
              acl := some policy.acl_tags
              context := some context }
          error := if steps.isEmpty then some "E_EMPTY_PLAN" else none }

/-! ## Tool metadata registry — `src/executor/registry.py` -/

/-- `ToolMetadata`. -/
structure ToolMetadata where
  name : String
  acl_tag : String
  side_effect : Bool := false
  idempotent : Bool := true
deriving DecidableEq, Repr

/-- The static `TOOL_METADATA` table. -/
def TOOL_METADATA : List (String × ToolMetadata) :=
  [("files.list", { name := "files.list", acl_tag := "fs.read", side_effect := false, idempotent := true }),
   ("files.read", { name := "files.read", acl_tag := "fs.read", side_effect := false, idempotent := true }),
   ("files.create", { name := "files.create", acl_tag := "fs.write", side_effect := true, idempotent := false }),
   ("files.append", { name := "files.append", acl_tag := "fs.write", side_effect := true, idempotent := false }),
   ("files.open", { name := "files.open", acl_tag := "fs.desktop", side_effect := true, idempotent := false }),
   ("files.reveal", { name := "files.reveal", acl_tag := "fs.desktop", side_effect := true, idempotent := false }),
   ("files.shortcut_to_desktop", { name := "files.shortcut_to_desktop", acl_tag := "fs.desktop", side_effect := true, idempotent := false }),
   ("system.help", { name := "system.help", acl_tag := "system", side_effect := false, idempotent := true }),
   ("system.config_get", { name := "system.config_get", acl_tag := "system", side_effect := false, idempotent := true }),
   ("system.config_set", { name := "system.config_set", acl_tag := "system", side_effect := true, idempotent := false })]

/-- `get_tool_metadata(name)`. -/
def get_tool_metadata (name : String) : Option ToolMetadata :=
  (TOOL_METADATA.find? (fun kv => kv.1 = name)).map (·.2)

/-! ## Transports — `src/core/executor/transports.py`,
`src/toolrunner/security.py` -/

/-- `TransportResponse`. -/
structure TransportResponse where
  ok : Bool
  result : Option PVal := none
  error : Option String := none
  raw : Option PVal := none
deriving DecidableEq, Repr

/-- The `ToolTransport` contract: `execute(tool, args)`, modelled as a pure
function from tool name and arguments to the structured response. -/
abbrev Transport := String → Args → TransportResponse

/-- `normalize_args` from `toolrunner/security.py`: strip whitespace and
one symmetric pair of outer quotes from string values. -/
def normalize_args (a : Args) : Args :=
  a.map fun kv =>
    match kv.2 with
    | PVal.vstr v =>
      let s := pyStrip v.toList
      (kv.1, PVal.vstr
        (if s.length ≥ 2 ∧ s.head? = s.getLast? ∧
            (s.head? = some '"' ∨ s.head? = some (Char.ofNat 39)) then
          ((s.drop 1).dropLast).asString
        else s.asString))
    | _ => kv

/-- Behaviour of one registered tool handler on given (normalized)
arguments: a returned value, or a raised exception with message `msg`. -/
inductive HandlerOutcome where
  | ok (v : Option PVal)
  | raise (msg : String)
deriving DecidableEq, Repr

/-- A tool handler `(args, config) → Any`, abstracted by its outcome. -/
abbrev Handler := Args → Args → HandlerOutcome

/-- `LocalToolTransport.execute(tool, args)` over a given handler registry
and config: unknown tools and raised exceptions are normalized into error
responses; nothing propagates. -/
def LocalToolTransport.execute (registry : List (String × Handler))
    (config : Args) (tool : String) (args : Args) : TransportResponse :=
  match (registry.find? (fun kv => kv.1 = tool)).map (·.2) with
  | none => { ok := false, error := some "E_UNKNOWN_COMMAND" }
  | some handler =>
    let normalized := normalize_args args
    match handler normalized config with
    | HandlerOutcome.ok result => { ok := true, result := result }
    | HandlerOutcome.raise msg =>
      if strStartsWith msg "E_" then { ok := false, error := some msg }
      else { ok := false, error := some ("E_RUNTIME:" ++ msg) }

/-! ## Executor — `src/executor/executor.py` -/

/-- `ExecutionEvent` (step timing is environment wall-clock and is
modelled as 0 ms). -/
structure ExecutionEvent where
  step_id : String
  tool : String
  ok : Bool
  ms : Rat
  result : Option PVal := none
  error : Option String := none
deriving DecidableEq, Repr

/-- The per-event summary dict placed into executor provenance. -/
structure EventSummary where
  step_id : String
  tool : String
  ok : Bool
  ms : Rat
  error : Option String
deriving DecidableEq, Repr

/-- The provenance dict attached to an `ExecutionResult` (the invalid-plan
branch sets `reason`, the executed branch sets the other fields). -/
structure ExecProvenance where
  reason : Option String := none
  events : Option (List EventSummary) := none
  policy_acl : Option (List String) := none
  policy_confirmation_level : Option Int := none
  planner : PlanProvenance
deriving DecidableEq, Repr

/-- `ExecutionResult`. -/
structure ExecutionResult where
  ok : Bool
  result : Option PVal
  events : List ExecutionEvent
  provenance : ExecProvenance
  errors : List String
deriving DecidableEq, Repr

/-- The ACL gate condition of `Executor.execute` before each step:
`self._strict_acl and meta and allowed_tags and meta.acl_tag not in
allowed_tags`. -/
def aclGate (strict_acl : Bool) (allowed_tags : List String) (tool : String) : Bool :=
  strict_acl &&
  (match get_tool_metadata tool with
   | some meta => !allowed_tags.isEmpty && !allowed_tags.contains meta.acl_tag
   | none => false)

/-- The step loop of `Executor.execute`: walks steps in order, threading
the last successful result; an ACL denial or a failing step without
`on_error="continue"` breaks out.  Returns the accumulated events, errors
and last successful result. -/
def execLoop (strict_acl : Bool) (allowed_tags : List String)
    (transport : Transport) (last_result : Option PVal) :
    List PlanStep → List ExecutionEvent × List String × Option PVal
  | [] => ([], [], last_result)
  | step :: rest =>
    if aclGate strict_acl allowed_tags step.tool then
      let err := "E_ACL_DENY:" ++ step.tool
      ([{ step_id := step.step_id, tool := step.tool, ok := false, ms := 0
          error := some err }],
       [err], last_result)
    else
      let response := transport step.tool step.args
      let ev : ExecutionEvent :=
        { step_id := step.step_id, tool := step.tool, ok := response.ok, ms := 0
          result := response.result, error := response.error }
      if response.ok then
        let out := execLoop strict_acl allowed_tags transport response.result rest
        (ev :: out.1, out.2.1, out.2.2)
      else
        let err := strOr response.error "E_COMMAND_FAILED"
        if step.on_error = some "continue" then
          let out := execLoop strict_acl allowed_tags transport last_result rest
          (ev :: out.1, err :: out.2.1, out.2.2)
        else ([ev], [err], last_result)

/-- `Executor.execute(plan)` over a transport, with
`strict_acl` as configured on the instance. -/
def Executor.execute (strict_acl : Bool) (transport : Transport)
    (plan : Plan) : ExecutionResult :=
  if !plan.is_valid then
    { ok := false, result := none, events := []
      provenance := { reason := plan.error, planner := plan.provenance }
      errors := [strOr plan.error "E_INVALID_PLAN"] }
  else
    let out := execLoop strict_acl plan.policy.acl_tags transport none plan.steps
    { ok := out.2.1.isEmpty
      result := out.2.2
      events := out.1
      provenance :=
        { events := some (out.1.map fun ev =>
            { step_id := ev.step_id, tool := ev.tool, ok := ev.ok, ms := ev.ms
              error := ev.error })
          policy_acl := some plan.policy.acl_tags
          policy_confirmation_level := some plan.policy.confirmation_level
          planner := plan.provenance }
      errors := out.2.1 }

/-! ## Derived forms and concrete scenarios used by the statements -/

/-- The event recorded for a step that is dispatched to the transport. -/
def dispatchEvent (transport : Transport) (step : PlanStep) : ExecutionEvent :=
  { step_id := step.step_id, tool := step.tool
    ok := (transport step.tool step.args).ok, ms := 0
    result := (transport step.tool step.args).result
    error := (transport step.tool step.args).error }

/-- The event recorded for a step denied by the ACL gate. -/
def denyEventOf (step : PlanStep) : ExecutionEvent :=
  { step_id := step.step_id, tool := step.tool, ok := false, ms := 0
    error := some ("E_ACL_DENY:" ++ step.tool) }

/-- The last-successful-result accumulator after a run of succeeding
steps. -/
def lastAfter (transport : Transport) (pre : List PlanStep)
    (last : Option PVal) : Option PVal :=
  pre.foldl (fun _ s => (transport s.tool s.args).result) last

/-- A resolver configured with a whitelist narrower than the legacy
`ALLOWED` set and a remote stage enabled. -/
def narrowCfg : ResolverConfig :=
  { whitelist := ["files.list"]
    remote_url := some "http://resolver.local"
    mode := "hybrid"
    low_conf_threshold := mkRat 1 2
    use_legacy_when_low_conf := true }

/-- A low-confidence remote answer naming the whitelisted `files.list`. -/
def lowConfListRemote : RemoteHttp :=
  RemoteHttp.okJson (RemoteData.dict (some "files.list") (some [])
    (some (mkRat 1 10)) false none none)

/-- The resolver configuration of the repository test
`test_resolver_intents.make_remote_resolver`. -/
def testRemoteCfg : ResolverConfig :=
  { whitelist := ["files.list", "files.read", "files.create", "files.append",
                  "system.help", "system.config_set"]
    remote_url := some "http://resolver.local"
    mode := "hybrid"
    low_conf_threshold := mkRat 1 2
    use_legacy_when_low_conf := false }

/-- The remote payload of the repository test
`test_remote_command_downgraded_when_text_lacks_command_hints`. -/
def confidentListRemote : RemoteHttp :=
  RemoteHttp.okJson (RemoteData.dict (some "files.list")
    (some [("mask", PVal.vstr "*")]) (some (mkRat 91 100)) false
    (some ["remote:match"]) (some "remote"))

/-- A resolver configuration with the full default whitelist and the remote
stage enabled. -/
def fullCfg : ResolverConfig :=
  { whitelist := legacyALLOWED
    remote_url := some "http://resolver.local"
    mode := "hybrid"
    low_conf_threshold := mkRat 1 2
    use_legacy_when_low_conf := true }

/-- A transport whose every call succeeds. -/
def alwaysOkTransport : Transport :=
  fun _ _ => { ok := true, result := some (PVal.vstr "done") }

/-- A step invoking a tool that has no entry in `TOOL_METADATA`. -/
def ghostStep : PlanStep :=
  { step_id := "s1", tool := "ghost.tool", args := [] }

/-- A valid single-step plan whose step tool has no entry in
`TOOL_METADATA`, under a policy that declares an ACL tag. -/
def ghostToolPlan : Plan :=
  { plan_id := "plan-ghost", intent := command_intent "ghost.tool" [] none none none none false []
    steps := [ghostStep]
    required_tools := ["ghost.tool"]
    policy := { acl_tags := ["fs.read"], confirmation_level := 0 }
    stylist_keys := [], provenance := {}, error := none }

/-- A step invoking the registered read-only tool `files.read`. -/
def readStep : PlanStep :=
  { step_id := "s1", tool := "files.read", args := [] }

/-- A valid single-step plan whose step tool is registered with
`acl_tag="fs.read"`, under a policy granting only `fs.write`. -/
def mismatchedTagPlan : Plan :=
  { plan_id := "plan-deny", intent := command_intent "files.read" [] none none none none false []
    steps := [readStep]
    required_tools := ["files.read"]
    policy := { acl_tags := ["fs.write"], confirmation_level := 0 }
    stylist_keys := [], provenance := {}, error := none }

/-- The utterance `прочитай "a.txt"`: no quick rule matches it, the legacy
router resolves it to `files.read`. -/
def readQuotedText : String := "прочитай \"a.txt\""

/-- The intent the resolver produces for `readQuotedText` under
`narrowCfg` and `lowConfListRemote` (legacy command and arguments, remote
confidence, fallback marked). -/
def lowConfIntent : Intent :=
  command_intent "files.read" [("path", PVal.vstr "a.txt")]
    (some (mkRat 1 10)) (some "legacy_router") (some "t") (some "legacy")
    true []

/-- Truthiness of the rule-table entry for a command name (`not rule`
is true both for a missing key and for an empty rule mapping). -/
def ruleLookupTruthy (rules : RuleTable) (name : String) : Bool :=
  match ruleGet rules name with
  | some r => r.isTruthy
  | none => false

/-- The steps the planner would build for a command name, `[]` when no
rule mapping exists. -/
def ruleStepsFor (rules : RuleTable) (name : String) (intent : Intent) : List PlanStep :=
  match ruleGet rules name with
  | some r => buildSteps r intent
  | none => []

/-- A handler registry with one business-error handler and one handler
raising an unclassified exception. -/
def sampleRegistry : List (String × Handler) :=
  [("boom.tool", fun _ _ => HandlerOutcome.raise "E_BOOM"),
   ("crash.tool", fun _ _ => HandlerOutcome.raise "kaput")]

/-! ## Theorems -/

/-- A command intent names its command: `is_command` forces the stored
name to be present. -/
theorem Intent.is_command_name_some (i : Intent) (h : i.is_command = true) :
    i.name = some (i.name.getD "") := by
  unfold Intent.is_command at h
  cases hn : i.name with
  | some n => simp [hn]
  | none => rw [hn] at h; simp at h

/-- C7: for every plan (valid or invalid), every strictness flag and every
transport, `ExecutionResult.ok` is true exactly when the recorded error
sequence is empty. -/
theorem execution_ok_iff_no_errors (strict_acl : Bool) (transport : Transport)
    (plan : Plan) :
    (Executor.execute strict_acl transport plan).ok = true ↔
      (Executor.execute strict_acl transport plan).errors = [] := by
  unfold Executor.execute
  by_cases h : plan.is_valid
  · simp only [h, Bool.not_true, Bool.false_eq_true, if_false]
    exact List.isEmpty_iff
  · simp only [Bool.not_eq_true] at h
    simp [h]

/-- C9: `LocalToolTransport.execute` never propagates a handler exception:
an unknown tool yields `E_UNKNOWN_COMMAND`, a raised exception whose
message carries an `E_` code is passed through as the error string, and any
other raised exception is wrapped as `E_RUNTIME:<msg>`; in every failure
case `ok=false` and `result=None`. -/
theorem local_transport_failure_contract (registry : List (String × Handler))
    (config : Args) (tool : String) (args : Args) :
    ((registry.find? (fun kv => kv.1 = tool)) = none →
      LocalToolTransport.execute registry config tool args =
        { ok := false, result := none, error := some "E_UNKNOWN_COMMAND", raw := none }) ∧
    (∀ (f : Handler) (msg : String),
      (registry.find? (fun kv => kv.1 = tool)).map (·.2) = some f →
      f (normalize_args args) config = HandlerOutcome.raise msg →
      LocalToolTransport.execute registry config tool args =
        (if strStartsWith msg "E_" then
          { ok := false, result := none, error := some msg, raw := none }
        else
          { ok := false, result := none, error := some ("E_RUNTIME:" ++ msg), raw := none })) := by
  constructor
  · intro hnone
    unfold LocalToolTransport.execute
    rw [hnone]
    rfl
  · intro f msg hfind hraise
    unfold LocalToolTransport.execute
    rw [hfind]
    simp only [hraise]

/-- Closed witness for the C9 contract at a concrete registry: an
unregistered tool, a business error and an unclassified exception. -/
theorem local_transport_failure_contract_witness :
    LocalToolTransport.execute sampleRegistry [] "nope.tool" [] =
      { ok := false, result := none, error := some "E_UNKNOWN_COMMAND", raw := none } ∧
    LocalToolTransport.execute sampleRegistry [] "boom.tool" [] =
      { ok := false, result := none, error := some "E_BOOM", raw := none } ∧
    LocalToolTransport.execute sampleRegistry [] "crash.tool" [] =
      { ok := false, result := none, error := some ("E_RUNTIME:" ++ "kaput"), raw := none } :=
  ⟨(local_transport_failure_contract sampleRegistry [] "nope.tool" []).1 rfl,
   ((local_transport_failure_contract sampleRegistry [] "boom.tool" []).2
     (fun _ _ => HandlerOutcome.raise "E_BOOM") "E_BOOM" rfl rfl).trans (by decide),
   ((local_transport_failure_contract sampleRegistry [] "crash.tool" []).2
     (fun _ _ => HandlerOutcome.raise "kaput") "kaput" rfl rfl).trans (by decide)⟩

/-- Unfolding `execLoop` at a step that passes the gate and succeeds. -/
theorem execLoop_cons_ok (strict : Bool) (tags : List String)
    (transport : Transport) (s : PlanStep) (rest : List PlanStep)
    (last : Option PVal) (hgate : aclGate strict tags s.tool = false)
    (hok : (transport s.tool s.args).ok = true) :
    execLoop strict tags transport last (s :: rest) =
      (dispatchEvent transport s ::
          (execLoop strict tags transport (transport s.tool s.args).result rest).1,
       (execLoop strict tags transport (transport s.tool s.args).result rest).2.1,
       (execLoop strict tags transport (transport s.tool s.args).result rest).2.2) := by
  conv_lhs => rw [execLoop]
  rw [if_neg (by simp [hgate])]
  simp only [hok, if_true, dispatchEvent]

/-- Unfolding `execLoop` at a step that passes the gate but fails, without
`on_error="continue"`: the loop breaks. -/
theorem execLoop_cons_fail_break (strict : Bool) (tags : List String)
    (transport : Transport) (s : PlanStep) (rest : List PlanStep)
    (last : Option PVal) (hgate : aclGate strict tags s.tool = false)
    (hok : (transport s.tool s.args).ok = false)
    (hcont : s.on_error ≠ some "continue") :
    execLoop strict tags transport last (s :: rest) =
      ([dispatchEvent transport s],
       [strOr (transport s.tool s.args).error "E_COMMAND_FAILED"], last) := by
  conv_lhs => rw [execLoop]
  rw [if_neg (by simp [hgate])]
  simp only [hok, Bool.false_eq_true, if_false, if_neg hcont, dispatchEvent]

/-- Unfolding `execLoop` at a failing step marked `on_error="continue"`:
the loop records the error and proceeds. -/
theorem execLoop_cons_fail_continue (strict : Bool) (tags : List String)
    (transport : Transport) (s : PlanStep) (rest : List PlanStep)
    (last : Option PVal) (hgate : aclGate strict tags s.tool = false)
    (hok : (transport s.tool s.args).ok = false)
    (hcont : s.on_error = some "continue") :
    execLoop strict tags transport last (s :: rest) =
      (dispatchEvent transport s ::
          (execLoop strict tags transport last rest).1,
       strOr (transport s.tool s.args).error "E_COMMAND_FAILED" ::
          (execLoop strict tags transport last rest).2.1,
       (execLoop strict tags transport last rest).2.2) := by
  conv_lhs => rw [execLoop]
  rw [if_neg (by simp [hgate])]
  simp only [hok, Bool.false_eq_true, if_false, if_pos hcont, dispatchEvent]

/-- Walking a run of steps that all pass the ACL gate and succeed on the
transport prepends their dispatch events and leaves errors to the rest of
the steps. -/
theorem execLoop_ok_run (strict : Bool) (tags : List String)
    (transport : Transport) :
    ∀ (pre rest : List PlanStep) (last : Option PVal),
      (∀ s ∈ pre, aclGate strict tags s.tool = false ∧
        (transport s.tool s.args).ok = true) →
      execLoop strict tags transport last (pre ++ rest) =
        (pre.map (dispatchEvent transport) ++
            (execLoop strict tags transport (lastAfter transport pre last) rest).1,
         (execLoop strict tags transport (lastAfter transport pre last) rest).2.1,
         (execLoop strict tags transport (lastAfter transport pre last) rest).2.2) := by
  intro pre
  induction pre with
  | nil =>
    intro rest last _
    simp [lastAfter]
  | cons s pre ih =>
    intro rest last h
    have hs := h s (by simp)
    have hrest : ∀ q ∈ pre, aclGate strict tags q.tool = false ∧
        (transport q.tool q.args).ok = true :=
      fun q hq => h q (by simp [hq])
    have hlast : lastAfter transport (s :: pre) last =
        lastAfter transport pre (transport s.tool s.args).result := by
      simp [lastAfter]
    rw [List.cons_append,
      execLoop_cons_ok strict tags transport s (pre ++ rest) last hs.1 hs.2,
      ih rest (transport s.tool s.args).result hrest, hlast]
    simp

/-- The step loop stops with a single denial event when it reaches a step
the ACL gate rejects. -/
theorem execLoop_denies (strict : Bool) (tags : List String)
    (transport : Transport) (s : PlanStep) (post : List PlanStep)
    (last : Option PVal) (hgate : aclGate strict tags s.tool = true) :
    execLoop strict tags transport last (s :: post) =
      ([denyEventOf s], ["E_ACL_DENY:" ++ s.tool], last) := by
  unfold execLoop
  rw [if_pos hgate]
  rfl

/-- C3 (amended): under `strict_acl=true` and a policy with at least one
ACL tag, when execution reaches a step whose tool HAS a metadata entry
whose tag is outside the policy tags — every earlier step passing the
gate and succeeding — the result is not ok, the error list is exactly the
`E_ACL_DENY:<tool>` entry (so `errors[0]` starts with `E_ACL_DENY`), and
the events end at the denied step: no later step appears.  (The amendment
restricts the claim to tools with a metadata entry — unregistered tools
skip the gate, see the counterexample — and to the first reached
offending step with all earlier steps succeeding, which is what makes
`errors[0]` the denial.) -/
theorem executor_denies_first_mismatched_registered_tool
    (transport : Transport) (plan : Plan) (pre post : List PlanStep)
    (s : PlanStep) (m : ToolMetadata)
    (hv : plan.is_valid = true)
    (hsteps : plan.steps = pre ++ s :: post)
    (htags : plan.policy.acl_tags ≠ [])
    (hpre : ∀ q ∈ pre, aclGate true plan.policy.acl_tags q.tool = false ∧
      (transport q.tool q.args).ok = true)
    (hm : get_tool_metadata s.tool = some m)
    (hmiss : plan.policy.acl_tags.contains m.acl_tag = false) :
    (Executor.execute true transport plan).ok = false ∧
    (Executor.execute true transport plan).errors = ["E_ACL_DENY:" ++ s.tool] ∧
    (Executor.execute true transport plan).events =
      pre.map (dispatchEvent transport) ++ [denyEventOf s] := by
  have h1 : plan.policy.acl_tags.isEmpty = false := by
    cases hval : plan.policy.acl_tags with
    | nil => exact absurd hval htags
    | cons a l => simp
  have hgate : aclGate true plan.policy.acl_tags s.tool = true := by
    unfold aclGate
    rw [hm]
    show (true && (!plan.policy.acl_tags.isEmpty &&
      !plan.policy.acl_tags.contains m.acl_tag)) = true
    rw [h1, hmiss]
    rfl
  unfold Executor.execute
  rw [hv]
  simp only [Bool.not_true, Bool.false_eq_true, if_false]
  rw [hsteps, execLoop_ok_run true plan.policy.acl_tags transport pre
    (s :: post) none hpre,
    execLoop_denies true plan.policy.acl_tags transport s post _ hgate]
  simp

/-- Closed witness for the amended C3 statement: a registered `fs.read`
tool under an `fs.write`-only policy is denied immediately. -/
theorem executor_denies_first_mismatched_registered_tool_witness :
    (Executor.execute true alwaysOkTransport mismatchedTagPlan).ok = false ∧
    (Executor.execute true alwaysOkTransport mismatchedTagPlan).errors =
      ["E_ACL_DENY:" ++ "files.read"] ∧
    (Executor.execute true alwaysOkTransport mismatchedTagPlan).events =
      [denyEventOf readStep] := by
  have h := executor_denies_first_mismatched_registered_tool alwaysOkTransport
    mismatchedTagPlan [] [] readStep
    { name := "files.read", acl_tag := "fs.read", side_effect := false, idempotent := true }
    (by decide) (by decide) (by decide) (by intro q hq; cases hq) (by decide) (by decide)
  refine ⟨h.1, ?_, ?_⟩
  · simpa using h.2.1
  · simpa using h.2.2

/-- C3 counterexample: the claim as stated is false.  A valid single-step
plan under `strict_acl=true` whose policy declares `fs.read`, with a step
tool that has no declared ACL tag at all (no `TOOL_METADATA` entry, so no
tag intersects the policy), is not denied: the tool is dispatched and the
execution finishes ok with no errors. -/
theorem executor_acl_skips_unregistered_tool :
    ghostToolPlan.is_valid = true ∧
    ghostToolPlan.policy.acl_tags ≠ [] ∧
    get_tool_metadata "ghost.tool" = none ∧
    (Executor.execute true alwaysOkTransport ghostToolPlan).ok = true ∧
    (Executor.execute true alwaysOkTransport ghostToolPlan).errors = [] := by
  decide

/-- C10: under `strict_acl=true` and a policy that declares ACL tags, a
reached step whose tool has no `TOOL_METADATA` entry is never ACL-denied:
the gate is skipped and the step is dispatched to the transport, its event
recording the transport response. -/
theorem executor_dispatches_unregistered_tool
    (transport : Transport) (plan : Plan) (pre post : List PlanStep)
    (s : PlanStep)
    (hv : plan.is_valid = true)
    (hsteps : plan.steps = pre ++ s :: post)
    (htags : plan.policy.acl_tags ≠ [])
    (hpre : ∀ q ∈ pre, aclGate true plan.policy.acl_tags q.tool = false ∧
      (transport q.tool q.args).ok = true)
    (hm : get_tool_metadata s.tool = none) :
    ∃ tail, (Executor.execute true transport plan).events =
      pre.map (dispatchEvent transport) ++ dispatchEvent transport s :: tail := by
  have hgate : aclGate true plan.policy.acl_tags s.tool = false := by
    unfold aclGate
    rw [hm]
    simp
  unfold Executor.execute
  rw [hv]
  simp only [Bool.not_true, Bool.false_eq_true, if_false]
  rw [hsteps, execLoop_ok_run true plan.policy.acl_tags transport pre
    (s :: post) none hpre]
  by_cases hok : (transport s.tool s.args).ok = true
  · rw [execLoop_cons_ok true plan.policy.acl_tags transport s post _ hgate hok]
    exact ⟨(execLoop true plan.policy.acl_tags transport
      (transport s.tool s.args).result post).1, by simp⟩
  · have hok2 : (transport s.tool s.args).ok = false := by
      simpa using hok
    by_cases hcont : s.on_error = some "continue"
    · rw [execLoop_cons_fail_continue true plan.policy.acl_tags transport s post
        _ hgate hok2 hcont]
      exact ⟨(execLoop true plan.policy.acl_tags transport
        (lastAfter transport pre none) post).1, by simp⟩
    · rw [execLoop_cons_fail_break true plan.policy.acl_tags transport s post
        _ hgate hok2 hcont]
      exact ⟨[], by simp⟩

/-- Closed witness for C10: the unregistered `ghost.tool` step is
dispatched (its event carries the transport response) although the policy
declares `fs.read`. -/
theorem executor_dispatches_unregistered_tool_witness :
    ∃ tail, (Executor.execute true alwaysOkTransport ghostToolPlan).events =
      dispatchEvent alwaysOkTransport ghostStep :: tail := by
  have h := executor_dispatches_unregistered_tool alwaysOkTransport
    ghostToolPlan [] [] ghostStep (by decide) (by decide) (by decide)
    (by intro q hq; cases hq) (by decide)
  simpa using h

set_option maxRecDepth 8000 in
/-- C6: `Planner.plan` is total (it is a Lean function) and sorts every
failure into exactly one of the three outcomes: `E_NOT_COMMAND` for a
non-command intent, `E_NO_RULE` when the rule table holds no usable
mapping for the name (`if not rule` also treats a present-but-empty
mapping as missing), `E_EMPTY_PLAN` when a rule matched but yields zero
steps; otherwise no error.  Moreover the produced plan is valid exactly
when no error was recorded. -/
theorem planner_three_failure_outcomes (rules : RuleTable) (plan_id : String)
    (intent : Intent) (context : List (String × String)) :
    (Planner.plan rules plan_id intent context).error =
      (if intent.is_command = false then some "E_NOT_COMMAND"
       else if ruleLookupTruthy rules (intent.name.getD "") = false then some "E_NO_RULE"
       else if ruleStepsFor rules (intent.name.getD "") intent = [] then some "E_EMPTY_PLAN"
       else none) ∧
    (Planner.plan rules plan_id intent context).is_valid =
      (Planner.plan rules plan_id intent context).error.isNone := by
  unfold Planner.plan
  by_cases hic : intent.is_command = true
  · have hname : intent.name = some (intent.name.getD "") :=
      Intent.is_command_name_some intent hic
    have hne : intent.name ≠ none := by
      rw [hname]
      exact fun hcon => Option.noConfusion hcon
    rw [if_neg (by simp [hic, hne])]
    simp only [hic, Bool.true_eq_false, if_false]
    unfold ruleLookupTruthy ruleStepsFor
    cases hrule : ruleGet rules (intent.name.getD "") with
    | none => simp [Plan.is_valid]
    | some rule =>
      by_cases htru : rule.isTruthy = true
      · rw [if_neg (by simp [htru])]
        by_cases hsteps : buildSteps rule intent = []
        · simp [htru, hsteps, Plan.is_valid]
        · simp [htru, hsteps, Plan.is_valid]
      · have htru2 : rule.isTruthy = false := by simpa using htru
        rw [if_pos (by simp [htru2])]
        simp [htru2, Plan.is_valid]
  · have hic2 : intent.is_command = false := by simpa using hic
    rw [if_pos (by simp [hic2])]
    simp [hic2, Plan.is_valid]

/-- Every command intent produced by the legacy matching loop names a
command of the legacy `ALLOWED` table (the loop returns only after the
`command in ALLOWED` guard). -/
theorem legacyTry_name_allowed :
    ∀ (ps : List LegacyPat) (cs : List Char) (i : Intent),
      legacyTry ps cs = some i → (i.name.getD "") ∈ legacyALLOWED := by
  intro ps
  induction ps with
  | nil =>
    intro cs i h
    simp [legacyTry] at h
  | cons p ps ih =>
    intro cs i h
    unfold legacyTry at h
    cases hp : p cs with
    | none =>
      rw [hp] at h
      exact ih cs i h
    | some ca =>
      obtain ⟨command, args⟩ := ca
      rw [hp] at h
      split at h
      next => exact ih cs i h
      next =>
        split at h
        next hcmd =>
          split at h
          next =>
            split at h
            next => exact ih cs i h
            next =>
              split at h
              next => exact ih cs i h
              next =>
                simp only [Option.some.injEq] at h
                subst h
                simpa [command_intent] using hcmd
          next =>
            simp only [Option.some.injEq] at h
            subst h
            simpa [command_intent] using hcmd
        next => exact ih cs i h

/-- A command intent out of `legacy_route` names a command in the legacy
`ALLOWED` table. -/
theorem legacy_route_command_allowed (text : String)
    (h : (legacy_route text).is_command = true) :
    ((legacy_route text).name.getD "") ∈ legacyALLOWED := by
  have hlr : legacy_route text =
      (match legacyTry legacyPatternList (pyStrip text.toList) with
       | some i => i
       | none => chat_intent (pyStrip text.toList).asString
           (some "legacy_router") none ["no_match"]) := rfl
  rw [hlr] at h ⊢
  cases hl : legacyTry legacyPatternList (pyStrip text.toList) with
  | none =>
    rw [hl] at h
    simp [chat_intent, Intent.is_command] at h
  | some i =>
    exact legacyTry_name_allowed legacyPatternList (pyStrip text.toList) i hl

/-- Every command-kinded intent `_resolve_remote` returns names a command
of the effective whitelist (both command branches are membership
guarded). -/
theorem resolve_remote_command_in_whitelist (cfg : ResolverConfig)
    (text trace_id : String) (remote : RemoteHttp) (i : Intent)
    (h : ResolverService.resolve_remote cfg text trace_id remote = Except.ok i)
    (hc : i.kind = IntentKind.command) :
    (i.name.getD "") ∈ effWhitelist cfg := by
  unfold ResolverService.resolve_remote at h
  cases remote with
  | httpError msg =>
    simp only [Except.ok.injEq] at h
    subst h
    simp [chat_intent] at hc
  | okJson data =>
    cases data with
    | notDict pyType => simp at h
    | dict command args confidence fallback_used explain resolver_rule =>
      cases command with
      | none =>
        simp only [Except.ok.injEq] at h
        subst h
        simp [chat_intent] at hc
      | some c =>
        simp only [] at h
        split at h
        next hin =>
          simp only [Except.ok.injEq] at h
          subst h
          simpa [command_intent] using hin.2
        next hin =>
          split at h
          next hfb =>
            simp only [Except.ok.injEq] at h
            subst h
            simpa [command_intent] using hfb.2
          next hfb =>
            simp only [Except.ok.injEq] at h
            subst h
            simp [chat_intent] at hc

/-- Every command-kinded intent the final fallback stage returns names a
whitelisted command, provided any surviving remote chat intent does. -/
theorem resolveFinal_command_in_whitelist (cfg : ResolverConfig)
    (text trace_id : String) (remote_chat : Option Intent)
    (hrc : ∀ j, remote_chat = some j → j.kind = IntentKind.command →
      (j.name.getD "") ∈ effWhitelist cfg)
    (hc : (ResolverService.resolveFinal cfg text trace_id remote_chat).kind =
      IntentKind.command) :
    ((ResolverService.resolveFinal cfg text trace_id remote_chat).name.getD "")
      ∈ effWhitelist cfg := by
  unfold ResolverService.resolveFinal at hc ⊢
  by_cases hleg : (legacy_route text).is_command = true ∧
      ((legacy_route text).name.getD "") ∈ effWhitelist cfg
  · rw [if_pos hleg] at hc ⊢
    simpa [command_intent] using hleg.2
  · rw [if_neg hleg] at hc ⊢
    cases remote_chat with
    | none => simp [chat_intent] at hc
    | some rc =>
      have hc2 : (if (!rc.is_command) = true then rc
          else chat_intent text (some "chat") (some trace_id) []).kind =
          IntentKind.command := hc
      show (if (!rc.is_command) = true then rc
          else chat_intent text (some "chat") (some trace_id) []).name.getD ""
          ∈ effWhitelist cfg
      by_cases hrcc : rc.is_command = true
      · rw [if_neg (by simp [hrcc])] at hc2
        simp [chat_intent] at hc2
      · have hrcc2 : rc.is_command = false := by simpa using hrcc
        rw [if_pos (by simp [hrcc2])] at hc2 ⊢
        exact hrc rc rfl hc2

/-- Every command-kinded intent the remote-and-after stages return is
whitelisted, except on the low-confidence legacy re-resolution path, where
it is marked `fallback_used` and drawn from the legacy `ALLOWED` table. -/
theorem resolveAfterQuick_command_whitelisted_or_legacy (cfg : ResolverConfig)
    (trace_id text : String) (remote : RemoteHttp) (i : Intent)
    (h : ResolverService.resolveAfterQuick cfg trace_id text remote = Except.ok i)
    (hc : i.kind = IntentKind.command) :
    (i.name.getD "") ∈ effWhitelist cfg ∨
      (i.meta.fallback_used = true ∧ (i.name.getD "") ∈ legacyALLOWED) := by
  unfold ResolverService.resolveAfterQuick at h
  split at h
  next hrem =>
    split at h
    next e heq => simp at h
    next ri heq =>
      split at h
      next hric =>
        split at h
        next hconf =>
          simp only [Except.ok.injEq] at h
          subst h
          exact Or.inl (resolve_remote_command_in_whitelist cfg text trace_id
            remote ri heq hc)
        next conf hconf =>
          split at h
          next hlow =>
            split at h
            next hlegc =>
              simp only [Except.ok.injEq] at h
              subst h
              refine Or.inr ⟨by simp [command_intent], ?_⟩
              simpa [command_intent] using legacy_route_command_allowed text hlegc
            next hlegc =>
              simp only [Except.ok.injEq] at h
              subst h
              exact Or.inl (resolve_remote_command_in_whitelist cfg text trace_id
                remote ri heq hc)
          next hlow =>
            simp only [Except.ok.injEq] at h
            subst h
            exact Or.inl (resolve_remote_command_in_whitelist cfg text trace_id
              remote ri heq hc)
      next hric =>
        simp only [Except.ok.injEq] at h
        subst h
        refine Or.inl (resolveFinal_command_in_whitelist cfg text trace_id
          (some ri) ?_ hc)
        intro j hj hjc
        cases hj
        exact resolve_remote_command_in_whitelist cfg text trace_id remote ri heq hjc
  next hrem =>
    simp only [Except.ok.injEq] at h
    subst h
    refine Or.inl (resolveFinal_command_in_whitelist cfg text trace_id none ?_ hc)
    intro j hj hjc
    cases hj

/-- C1 (amended): for every configuration, input text and remote outcome,
a command-kinded Intent returned by `ResolverService.resolve` names a
member of the effective whitelist — except when it was produced by the
low-confidence legacy re-resolution path, where it is marked
`fallback_used=true` and its name is only guaranteed to be in the legacy
router `ALLOWED` table (which can exceed a narrower configured
whitelist; see the counterexample). -/
theorem resolve_command_whitelisted_or_legacy_allowed (cfg : ResolverConfig)
    (trace_id text : String) (remote : RemoteHttp) (i : Intent)
    (h : ResolverService.resolve cfg trace_id text remote = Except.ok i)
    (hc : i.kind = IntentKind.command) :
    (i.name.getD "") ∈ effWhitelist cfg ∨
      (i.meta.fallback_used = true ∧ (i.name.getD "") ∈ legacyALLOWED) := by
  unfold ResolverService.resolve at h
  split at h
  next quick hquick =>
    split at h
    next hguard =>
      simp only [Except.ok.injEq] at h
      subst h
      left
      unfold quickGuard at hguard
      cases hqname : quick.name with
      | none => rw [hqname] at hguard; simp at hguard
      | some n =>
        rw [hqname] at hguard
        simpa [command_intent, hqname] using (by simpa using hguard : n ∈ effWhitelist cfg)
    next hguard =>
      exact resolveAfterQuick_command_whitelisted_or_legacy cfg trace_id text
        remote i h hc
  next hquick =>
    exact resolveAfterQuick_command_whitelisted_or_legacy cfg trace_id text
      remote i h hc

/-- Closed witness for the amended C1: the low-confidence scenario under
`narrowCfg` resolves to the concrete `lowConfIntent`, whose name satisfies
the fallback disjunct. -/
theorem resolve_command_whitelisted_or_legacy_allowed_witness :
    (lowConfIntent.name.getD "") ∈ effWhitelist narrowCfg ∨
      (lowConfIntent.meta.fallback_used = true ∧
        (lowConfIntent.name.getD "") ∈ legacyALLOWED) :=
  resolve_command_whitelisted_or_legacy_allowed narrowCfg "t" readQuotedText
    lowConfListRemote lowConfIntent (by rfl) (by decide)

/-- C1 counterexample: the claim as stated is false.  Under a whitelist of
just `files.list`, with the remote stage returning the whitelisted
`files.list` at confidence 0.1 (< 0.5) and `use_legacy_when_low_conf`
set, `resolve` re-resolves `прочитай "a.txt"` via the Legacy Router and
returns the command `files.read` — which is not in the configured
whitelist. -/
theorem resolve_low_conf_fallback_escapes_whitelist :
    ResolverService.resolve narrowCfg "t" readQuotedText lowConfListRemote =
      Except.ok lowConfIntent ∧
    lowConfIntent.kind = IntentKind.command ∧
    lowConfIntent.name = some "files.read" ∧
    ¬ ("files.read" ∈ effWhitelist narrowCfg) := by
  exact ⟨by rfl, by decide, by decide, by decide⟩

/-- C2: evaluation of `ResolverService.resolve` at the failing input of
the repository test `test_remote_command_downgraded_when_text_lacks_
command_hints`: the text `что ты умеешь?` carries no lexical hint of
command intent, yet the code keeps the remote `files.list` command intent
(rule `remote`) instead of downgrading it to a chat intent annotated
`remote_suspect_command` — no veto exists in `resolver.py`. -/
theorem resolve_keeps_remote_command_without_lexical_veto :
    ResolverService.resolve testRemoteCfg "t" "что ты умеешь?" confidentListRemote =
      Except.ok (command_intent "files.list" [("mask", PVal.vstr "*")]
        (some (mkRat 91 100)) (some "remote") (some "t") (some "remote")
        false ["remote:match"]) := by
  rfl

/-- C4: evaluation of `ResolverService.resolve` at the failing input: a
200-level remote response whose JSON body is a list (not an object).  The
`except (httpx.HTTPError, ValueError)` clause does not cover the
`AttributeError` raised by `data.get("command")`, so `resolve` raises
instead of returning a `remote_error` chat intent. -/
theorem resolve_raises_on_nonobject_remote_body :
    ResolverService.resolve fullCfg "t" "привет"
      (RemoteHttp.okJson (RemoteData.notDict "list")) =
      Except.error (PyExc.attributeError "list object has no attribute get") := by
  rfl

/-- C8: the whitelisted quick-rule phrasing `допиши в файл a.txt: привет`
resolves — for every trace id and every remote outcome, i.e. without
consulting the remote stage — to the command `files.append` with arguments
`path="a.txt"`, `content="привет"`, confidence 0.99, `rule="quick_ru"` and
`source="quick"`. -/
theorem resolve_quick_append_phrase (trace_id : String) (remote : RemoteHttp) :
    ResolverService.resolve fullCfg trace_id "допиши в файл a.txt: привет" remote =
      Except.ok (command_intent "files.append"
        [("path", PVal.vstr "a.txt"), ("content", PVal.vstr "привет")]
        (some (mkRat 99 100)) (some "quick_ru") (some trace_id)
        (some "quick") false []) := by
  rfl

/-- `_resolve_remote` on a well-formed 200 response naming a nonempty
whitelisted command builds the corresponding remote command intent. -/
theorem resolve_remote_dict_command_ok (cfg : ResolverConfig)
    (text trace_id c : String) (args : Option Args) (conf : Option Rat)
    (fb : Bool) (expl : Option (List String)) (rr : Option String)
    (hcne : c ≠ "") (hcw : c ∈ effWhitelist cfg) :
    ResolverService.resolve_remote cfg text trace_id
      (RemoteHttp.okJson (RemoteData.dict (some c) args conf fb expl rr)) =
      Except.ok (command_intent c (args.getD []) conf
        (some (strOr rr "remote")) (some trace_id) (some "remote") fb
        (expl.getD [])) := by
  simp only [ResolverService.resolve_remote]
  rw [if_pos ⟨hcne, hcw⟩]

/-- The low-confidence path of the remote stage: an enabled remote stage
returning a command intent with confidence below the threshold, with
`use_legacy_when_low_conf` set and the legacy router matching, yields the
legacy command with the remote confidence. -/
theorem resolveAfterQuick_low_conf (cfg : ResolverConfig)
    (trace_id text : String) (remote : RemoteHttp) (ri : Intent) (conf : Rat)
    (hen : remoteUrlTruthy cfg = true ∧ (cfg.mode = "hybrid" ∨ cfg.mode = "remote"))
    (hrr : ResolverService.resolve_remote cfg text trace_id remote = Except.ok ri)
    (hric : ri.is_command = true)
    (hconf : ri.meta.confidence = some conf)
    (hlow : cfg.use_legacy_when_low_conf = true ∧ conf < cfg.low_conf_threshold)
    (hlc : (legacy_route text).is_command = true) :
    ResolverService.resolveAfterQuick cfg trace_id text remote =
      Except.ok (command_intent ((legacy_route text).name.getD "")
        (legacy_route text).args (some conf) (legacy_route text).meta.rule
        (some trace_id) (some (strOr (legacy_route text).meta.source "legacy"))
        true (legacy_route text).meta.explain) := by
  unfold ResolverService.resolveAfterQuick
  rw [if_pos hen, hrr]
  simp only [hric, if_true, hconf]
  rw [if_pos hlow, if_pos hlc]

/-- C5: whenever the quick stage produces no whitelisted command, the
remote stage is enabled and returns a whitelisted nonempty command with a
confidence strictly below `low_conf_threshold`, `use_legacy_when_low_conf`
is set, and the Legacy Router resolves the same text to a command, then
`resolve` returns an Intent whose name and args are those of the Legacy Router
while `meta.confidence` keeps the remote value and `fallback_used=true`. -/
theorem resolve_low_conf_uses_legacy_keeps_remote_confidence
    (cfg : ResolverConfig) (trace_id text c : String) (args : Option Args)
    (conf : Rat) (fb : Bool) (expl : Option (List String)) (rr : Option String)
    (hq : ∀ q, resolve_quick text = some q → quickGuard cfg q = false)
    (hurl : remoteUrlTruthy cfg = true)
    (hmode : cfg.mode = "hybrid" ∨ cfg.mode = "remote")
    (hcne : c ≠ "") (hcw : c ∈ effWhitelist cfg)
    (hconf : conf < cfg.low_conf_threshold)
    (hleg : cfg.use_legacy_when_low_conf = true)
    (hlc : (legacy_route text).is_command = true) :
    ∃ i, ResolverService.resolve cfg trace_id text
        (RemoteHttp.okJson (RemoteData.dict (some c) args (some conf) fb expl rr)) =
          Except.ok i ∧
      i.name = (legacy_route text).name ∧
      i.args = (legacy_route text).args ∧
      i.meta.confidence = some conf ∧
      i.meta.fallback_used = true := by
  have hafter : ResolverService.resolveAfterQuick cfg trace_id text
      (RemoteHttp.okJson (RemoteData.dict (some c) args (some conf) fb expl rr)) =
      Except.ok (command_intent ((legacy_route text).name.getD "")
        (legacy_route text).args (some conf) (legacy_route text).meta.rule
        (some trace_id) (some (strOr (legacy_route text).meta.source "legacy"))
        true (legacy_route text).meta.explain) := by
    refine resolveAfterQuick_low_conf cfg trace_id text _ _ conf ⟨hurl, hmode⟩
      (resolve_remote_dict_command_ok cfg text trace_id c args (some conf) fb
        expl rr hcne hcw) ?_ rfl ⟨hleg, hconf⟩ hlc
    simp [command_intent, Intent.is_command, hcne]
  refine ⟨command_intent ((legacy_route text).name.getD "")
      (legacy_route text).args (some conf) (legacy_route text).meta.rule
      (some trace_id) (some (strOr (legacy_route text).meta.source "legacy"))
      true (legacy_route text).meta.explain, ?_, ?_, ?_, ?_, ?_⟩
  · unfold ResolverService.resolve
    cases hq2 : resolve_quick text with
    | some q =>
      show (if quickGuard cfg q = true then
          Except.ok (command_intent (q.name.getD "") q.args (some (mkRat 99 100))
            (some (strOr q.meta.rule "quick")) (some trace_id)
            (some (strOr q.meta.source "quick")) false q.meta.explain)
        else ResolverService.resolveAfterQuick cfg trace_id text
          (RemoteHttp.okJson (RemoteData.dict (some c) args (some conf) fb expl rr))) = _
      rw [hq q hq2]
      simp only [Bool.false_eq_true, if_false]
      exact hafter
    | none => exact hafter
  · show some ((legacy_route text).name.getD "") = (legacy_route text).name
    exact (Intent.is_command_name_some (legacy_route text) hlc).symm
  · rfl
  · rfl
  · rfl

/-- Closed witness for C5: under the full whitelist, the low-confidence
remote `files.list` answer for `прочитай "a.txt"` yields the legacy
`files.read` command with the remote confidence 0.1 and the fallback
mark. -/
theorem resolve_low_conf_uses_legacy_keeps_remote_confidence_witness :
    ∃ i, ResolverService.resolve fullCfg "t" readQuotedText
        (RemoteHttp.okJson (RemoteData.dict (some "files.list") (some [])
          (some (mkRat 1 10)) false none none)) = Except.ok i ∧
      i.name = (legacy_route readQuotedText).name ∧
      i.args = (legacy_route readQuotedText).args ∧
      i.meta.confidence = some (mkRat 1 10) ∧
      i.meta.fallback_used = true :=
  resolve_low_conf_uses_legacy_keeps_remote_confidence fullCfg "t"
    readQuotedText "files.list" (some []) (mkRat 1 10) false none none
    (by intro q hq2; rw [show resolve_quick readQuotedText = none from rfl] at hq2; cases hq2)
    (by decide) (Or.inl rfl) (by decide) (by decide) (by decide) (by decide)
    (by decide)
